import Mathlib

/-!
Verification development for the cms-news repository (four Python prototypes
of a fetch-extract-summarize news pipeline).

The shallow embedding below translates the pure logic of the source files:
  * shared text normalization (`fetch_and_extract_text_*` in app.py / main.py),
  * the per-source capped processing loop of `fetch_news` (app.py) and
    `get_news` (main.py),
  * the LLM-response post-processing of `extract_names_from_text`,
    `get_city` and `generate_summary` (app.py and main.py variants),
  * the freeform line-oriented parser of `get_city_news` (main2.py).

External effects (HTTP fetches, HTML/XML parsing, the Gemini client, and the
json decoder applied to its replies) are modelled as oracle data: each run is
parameterized by the outcomes those calls would produce (an `Option`/`Except`
value whose failure constructor stands for the exception branch that the
Python code catches).  Everything downstream of those outcomes is translated
from the source.
-/

namespace CmsNews

/-! ## Shared text utilities -/

/-- Lower-casing of a string, as Python `str.lower` on the ASCII texts the
keywords and sentinels use. -/
def lowerStr (s : String) : String := ⟨s.data.map Char.toLower⟩

/-- Python `str.startswith`. -/
def pyStartsWith (s pre : String) : Bool := pre.data.isPrefixOf s.data

/-- The characters removed by `re.sub(r"[\([{})\]]", "", ...)` in the
extraction helpers (the six bracket characters). -/
def isBracketChar (c : Char) : Bool :=
  c = '(' || c = ')' || c = '[' || c = ']' || c = '\x7b' || c = '\x7d'

/-- `text.replace("\n", '')` of the extraction helpers. -/
def removeNewlines (s : String) : String :=
  ⟨s.data.filter (fun c => c ≠ '\n')⟩

/-- The bracket-removal step of the extraction helpers. -/
def removeBrackets (s : String) : String :=
  ⟨s.data.filter (fun c => !isBracketChar c)⟩

/-- Drop from both ends of a character list every character satisfying `p`
(the behaviour of Python's `str.strip` family). -/
def trimBoth (p : Char → Bool) (l : List Char) : List Char :=
  ((l.dropWhile p).reverse.dropWhile p).reverse

/-- Python `str.strip()` (no argument): remove surrounding whitespace. -/
def pyStrip (s : String) : String :=
  ⟨trimBoth Char.isWhitespace s.data⟩

/-- The article-text normalization of `fetch_and_extract_text_*` and of the
RSS branch: strip newlines, remove brackets, trim surrounding whitespace. -/
def normalizeText (s : String) : String :=
  pyStrip (removeBrackets (removeNewlines s))

/-- True when neither the first nor the last character is whitespace. -/
def noEdgeWhitespace (l : List Char) : Bool :=
  (l.head?.all fun c => !c.isWhitespace) && (l.getLast?.all fun c => !c.isWhitespace)

/-- `summary = response.text.replace("```html", "").replace("```", "")` of
`generate_summary`. -/
def stripFences (s : String) : String :=
  (s.replace "\x60\x60\x60html" "").replace "\x60\x60\x60" ""

/-! ## The capped per-source processing loop

`fetch_news` (app.py) and `get_news` (main.py) run, for each source, the loop

    valid_urls = 0
    for news_url in all_urls:
        if valid_urls >= cap: break
        text = <extract>(news_url)
        if text:
            result = generate_summary(text, news_url)
            news_items.append({...})
            valid_urls += 1

`processSource ex mk cap urls valid` returns the produced records together
with the list of candidate URLs on which an extraction attempt was issued. -/

def processSource {α : Type} (ex : String → Option String)
    (mk : String → String → α) (cap : Nat) :
    List String → Nat → List α × List String
  | [], _ => ([], [])
  | u :: rest, valid =>
    if cap ≤ valid then ([], [])
    else
      match ex u with
      | none =>
        ((processSource ex mk cap rest valid).1,
         u :: (processSource ex mk cap rest valid).2)
      | some t =>
        if t = "" then
          ((processSource ex mk cap rest valid).1,
           u :: (processSource ex mk cap rest valid).2)
        else
          (mk u t :: (processSource ex mk cap rest (valid + 1)).1,
           u :: (processSource ex mk cap rest (valid + 1)).2)

/-- An extraction attempt on `u` is a success exactly when it yields a
non-empty text (Python truthiness of `text`). -/
def succeeds (ex : String → Option String) (u : String) : Bool :=
  match ex u with
  | none => false
  | some t => decide (t ≠ "")

/-- The selector-based extraction helpers: on a fetched page text, normalize
and return `none` for an empty result (`result_text.strip() if
result_text.strip() else None`); `none` input models a network error or a
selector miss. -/
def fetch_and_extract (page : Option String) : Option String :=
  match page with
  | none => none
  | some raw =>
    let t := normalizeText raw
    if t = "" then none else some t

/-! ## Listing-page URL discovery (pure anchor processing of fetch_news) -/

/-- Relative-href resolution: `f"{url}/{href.lstrip('/')}"` when the href
does not start with `http`. -/
def resolveHref (base href : String) : String :=
  if pyStartsWith href "http" then href
  else base ++ "/" ++ (⟨href.data.dropWhile (fun c => c = '/')⟩ : String)

/-- The constructionworld anchor scan: skip empty, fragment and
`javascript:` hrefs, resolve the rest against the base URL. -/
def collectAnchors (base : String) (hrefs : List String) : List String :=
  (hrefs.filter
    (fun h => !(h = "") && !pyStartsWith h "#" && !pyStartsWith h "javascript:")).map
    (resolveHref base)

/-- The rprealtyplus anchor scan: keep `news-views*` hrefs, make them
absolute, deduplicate by exact string equality preserving first-seen order. -/
def newsViewsUrls (hrefs : List String) : List String :=
  hrefs.foldl
    (fun acc h =>
      if !(h = "") && pyStartsWith h "news-views" then
        let full := "https://www.rprealtyplus.com/" ++ h
        if full ∈ acc then acc else acc ++ [full]
      else acc)
    []

/-! ## app.py : the streamlit aggregator -/

namespace App

/-- The result of `extract_names_from_text` (news type and date). -/
structure TypeDate where
  news_type : String
  date : String
deriving DecidableEq, Repr

/-- `extract_names_from_text` (app.py): guard on empty text, then a strict
JSON decode of the LLM reply.  `decoded = none` models a raised exception
(network error or `json.loads` failure); `some nt` carries the optional
`news_type` key of the decoded object.  `today` is the value of
`datetime.now().strftime("%Y-%m-%d")` at this call. -/
def extract_names_from_text (text : String) (decoded : Option (Option String))
    (today : String) : TypeDate :=
  if text = "" then ⟨"Unknown", today⟩
  else
    match decoded with
    | none => ⟨"Unknown", today⟩
    | some nt => ⟨nt.getD "Unknown", today⟩

/-- The sentinel-collapse of `get_city`:
`city if city and "unknown" not in [x.lower() for x in city] else ["unknown"]`. -/
def collapseField (l : List String) : List String :=
  if l ≠ [] ∧ "unknown" ∉ l.map lowerStr then l else ["unknown"]

/-- `get_city` (app.py): guard on empty text; `decoded = none` models a
raised exception (LLM call or `json.loads`); otherwise the decoded object's
optional `city` and `locality` keys default to `["unknown"]` and each field
is collapsed independently. -/
def get_city (text : String)
    (decoded : Option (Option (List String) × Option (List String))) :
    List String × List String :=
  if text = "" then (["unknown"], ["unknown"])
  else
    match decoded with
    | none => (["unknown"], ["unknown"])
    | some (c, l) =>
      let city := c.getD ["unknown"]
      let locality := l.getD ["unknown"]
      (collapseField city, collapseField locality)

/-- Per-article LLM outcomes consumed by `generate_summary` (app.py):
the decoded classifier reply, the decoded location reply, and the raw
summarizer reply (`Except.error msg` models the exception caught by the
outer `try`, whose `str(e)` is `msg`). -/
structure LLMEnv where
  typeDecoded : Option (Option String)
  locDecoded : Option (Option (List String) × Option (List String))
  sumResp : Except String String

/-- The fields `generate_summary` (app.py) returns (the caller adds the
URL). -/
structure SummaryResult where
  summary : String
  city : List String
  locality : List String
  news_type : String
  date : String
deriving DecidableEq, Repr

/-- `generate_summary` (app.py): empty text and summarizer failure yield the
all-sentinel records; otherwise the record is assembled from the three LLM
calls. -/
def generate_summary (text : String) (env : LLMEnv) (today : String) :
    SummaryResult :=
  if text = "" then
    { summary := "Unable to generate summary due to missing content",
      city := ["unknown"], locality := ["unknown"],
      news_type := "Unknown", date := today }
  else
    match env.sumResp with
    | .error e =>
      { summary := "Error generating summary: " ++ e,
        city := ["unknown"], locality := ["unknown"],
        news_type := "Unknown", date := today }
    | .ok raw =>
      let extracted := extract_names_from_text text env.typeDecoded today
      let cl := get_city text env.locDecoded
      { summary := stripFences raw,
        city := cl.1, locality := cl.2,
        news_type := extracted.news_type, date := extracted.date }

/-- The output unit appended to `news_items` by `fetch_news`. -/
structure NewsRec where
  news_url : String
  summary : String
  city : List String
  locality : List String
  news_type : String
  date : String
deriving DecidableEq, Repr

/-- External-world oracles of one `fetch_news` run: listing outcomes
(`none` = exception during the listing fetch/parse), per-article page
outcomes, and per-article LLM outcomes keyed by URL. -/
structure World where
  cwListing : Option (Nat × List String)
  cwPage : String → Option String
  etFeed : Option (List String)
  etPage : String → Option String
  rpListing : Option (List String)
  rpPage : String → Option String
  llm : String → LLMEnv

/-- Record assembly in the `fetch_news` loops (`news_items.append({...})`). -/
def mkRec (w : World) (today u t : String) : NewsRec :=
  let r := generate_summary t (w.llm u) today
  { news_url := u, summary := r.summary, city := r.city,
    locality := r.locality, news_type := r.news_type, date := r.date }

/-- Source block 1 of `fetch_news`: constructionworld.in, guarded by
`if response.status_code == 200`, cap 20. -/
def cwContribution (w : World) (today : String) : List NewsRec :=
  match w.cwListing with
  | none => []
  | some (status, hrefs) =>
    if status = 200 then
      (processSource (fun u => fetch_and_extract (w.cwPage u)) (mkRec w today) 20
        (collectAnchors "https://www.constructionworld.in" hrefs) 0).1
    else []

/-- Source block 2 of `fetch_news`: the economictimes RSS feed, guid URLs,
inline normalization of each fetched page, cap 10. -/
def etContribution (w : World) (today : String) : List NewsRec :=
  match w.etFeed with
  | none => []
  | some urls =>
    (processSource (fun u => (w.etPage u).map normalizeText) (mkRec w today) 10
      urls 0).1

/-- Source block 3 of `fetch_news`: rprealtyplus.com, prefix-filtered and
deduplicated anchors, cap 6. -/
def rpContribution (w : World) (today : String) : List NewsRec :=
  match w.rpListing with
  | none => []
  | some hrefs =>
    (processSource (fun u => fetch_and_extract (w.rpPage u)) (mkRec w today) 6
      (newsViewsUrls hrefs) 0).1

/-- `fetch_news` (app.py): the three source blocks run sequentially, each
inside its own catch-all, appending to one shared list. -/
def fetch_news (w : World) (today : String) : List NewsRec :=
  cwContribution w today ++ etContribution w today ++ rpContribution w today

end App

/-! ## main.py : the FastAPI aggregator variant -/

namespace MainApp

/-- Per-article LLM outcomes of main.py's `generate_summary`: the raw
summarizer reply (`Except.error msg` = the exception caught by the outer
`try`) and the raw `get_city` reply (`none` = the exception caught inside
`get_city`, which then returns the literal string `'["unknown"]'`). -/
structure LLMEnv where
  sumResp : Except String String
  cityResp : Option String

/-- `extract_names_from_text` (main.py): a pure placeholder. -/
def extract_names_from_text (_text : String) (today : String) : String × String :=
  ("Unknown", today)

/-- `get_city` (main.py): returns the raw LLM response text, or the literal
`'["unknown"]'` string when the call raises. -/
def get_city (cityResp : Option String) : String :=
  cityResp.getD "[\"unknown\"]"

/-- The fields main.py's `generate_summary` returns. -/
structure SummaryResult where
  summary : String
  city_locality : String
  date : String
deriving DecidableEq, Repr

/-- `generate_summary` (main.py). -/
def generate_summary (text : String) (env : LLMEnv) (today : String) :
    SummaryResult :=
  if text = "" then
    { summary := "Unable to generate summary due to missing content",
      city_locality := "[\"unknown\"]", date := today }
  else
    match env.sumResp with
    | .error e =>
      { summary := "Error generating summary: " ++ e,
        city_locality := "[\"unknown\"]", date := today }
    | .ok raw =>
      { summary := stripFences raw,
        city_locality := get_city env.cityResp,
        date := (extract_names_from_text text today).2 }

/-- The output unit appended to `news_items` by `get_news`. -/
structure NewsRec where
  news_url : String
  summary : String
  city_locality : String
  date : String
deriving DecidableEq, Repr

/-- External-world oracles of one `get_news` run (same shape as the app.py
world, with main.py's LLM outcomes). -/
structure World where
  cwListing : Option (Nat × List String)
  cwPage : String → Option String
  etFeed : Option (List String)
  etPage : String → Option String
  rpListing : Option (List String)
  rpPage : String → Option String
  llm : String → LLMEnv

/-- Record assembly in the `get_news` loops. -/
def mkRec (w : World) (today u t : String) : NewsRec :=
  let r := generate_summary t (w.llm u) today
  { news_url := u, summary := r.summary, city_locality := r.city_locality,
    date := r.date }

/-- `get_news` source block 1: constructionworld.in, cap 5. -/
def cwContribution (w : World) (today : String) : List NewsRec :=
  match w.cwListing with
  | none => []
  | some (status, hrefs) =>
    if status = 200 then
      (processSource (fun u => fetch_and_extract (w.cwPage u)) (mkRec w today) 5
        (collectAnchors "https://www.constructionworld.in" hrefs) 0).1
    else []

/-- `get_news` source block 2: the economictimes RSS feed, cap 5. -/
def etContribution (w : World) (today : String) : List NewsRec :=
  match w.etFeed with
  | none => []
  | some urls =>
    (processSource (fun u => (w.etPage u).map normalizeText) (mkRec w today) 5
      urls 0).1

/-- `get_news` source block 3: rprealtyplus.com, cap 5. -/
def rpContribution (w : World) (today : String) : List NewsRec :=
  match w.rpListing with
  | none => []
  | some hrefs =>
    (processSource (fun u => fetch_and_extract (w.rpPage u)) (mkRec w today) 5
      (newsViewsUrls hrefs) 0).1

/-- `get_news` (main.py): three independent source blocks appending to one
shared list. -/
def get_news (w : World) (today : String) : List NewsRec :=
  cwContribution w today ++ etContribution w today ++ rpContribution w today

end MainApp

/-! ## main2.py : the single-city query with the freeform line parser -/

namespace CityApi

/-- The record under construction in `get_city_news`'s parsing loop: a
Python dict whose keys are set by the keyword-classified lines.  The empty
record models the empty dict (falsy in `if current:`). -/
structure FreeRec where
  summary : Option String := none
  city : Option String := none
  locality : Option String := none
  source : Option String := none
  news_type : Option String := none
  date : Option String := none
deriving DecidableEq, Repr

/-- Substring test (Python `in` on strings), on character lists. -/
def hasSubstr (pat : List Char) : List Char → Bool
  | [] => pat.isEmpty
  | c :: rest => pat.isPrefixOf (c :: rest) || hasSubstr pat rest

/-- Case-insensitive keyword containment: `kw in line.lower()`. -/
def hasKw (kw : String) (line : List Char) : Bool :=
  hasSubstr kw.data (line.map Char.toLower)

/-- The quote/comma characters of `.strip('",')`. -/
def isQuoteComma (c : Char) : Bool := c = '"' || c = ','

/-- `line.split(":", 1)[-1]`: the text after the first colon, or the whole
line when it has no colon. -/
def afterFirstColon (l : List Char) : List Char :=
  if l.contains ':' then (l.dropWhile (fun c => c ≠ ':')).tail else l

/-- `line.split(":", 1)[-1].strip().strip('",')`: the field value of a
classified line. -/
def lineValue (line : List Char) : List Char :=
  trimBoth isQuoteComma (trimBoth Char.isWhitespace (afterFirstColon line))

/-- One iteration of the parsing loop of `get_city_news`: classify the line
by the first matching keyword and update the accumulated records and the
record under construction. -/
def stepLine (city : String) (st : List FreeRec × FreeRec) (line : List Char) :
    List FreeRec × FreeRec :=
  let value : String := ⟨lineValue line⟩
  if hasKw "summary" line then
    (if st.2 = ({} : FreeRec) then st.1 else st.1 ++ [st.2],
     { summary := some value, city := some city })
  else if hasKw "locality" line then (st.1, { st.2 with locality := some value })
  else if hasKw "source" line then (st.1, { st.2 with source := some value })
  else if hasKw "news_type" line then (st.1, { st.2 with news_type := some value })
  else if hasKw "date" line then (st.1, { st.2 with date := some value })
  else st

/-- Newline splitting on character lists (`str.splitlines` restricted to
`'\n'` separators; the subsequent non-empty filter makes the trailing-empty
difference to Python's `splitlines` unobservable). -/
def splitOnNewline : List Char → List (List Char)
  | [] => [[]]
  | c :: rest =>
    if c = '\n' then [] :: splitOnNewline rest
    else
      match splitOnNewline rest with
      | [] => [[c]]
      | l :: ls => (c :: l) :: ls

/-- The kept lines: `[line for line in result_text.splitlines() if
line.strip()]` (original lines whose strip is non-empty). -/
def splitLines (s : String) : List (List Char) :=
  (splitOnNewline s.data).filter (fun l => trimBoth Char.isWhitespace l ≠ [])

/-- The final-record emission: `if current: parsed_news.append(current)`. -/
def finishRun (st : List FreeRec × FreeRec) : List FreeRec :=
  if st.2 = ({} : FreeRec) then st.1 else st.1 ++ [st.2]

/-- The whole freeform parser of `get_city_news`. -/
def parseFreeform (city : String) (text : String) : List FreeRec :=
  finishRun ((splitLines text).foldl (stepLine city) ([], ({} : FreeRec)))

/-- A line that sets a field of the record under construction without
closing it: it matches one of the non-summary keywords. -/
def setsField (line : List Char) : Bool :=
  hasKw "locality" line || hasKw "source" line || hasKw "news_type" line ||
    hasKw "date" line

/-- Drop from the right end only. -/
def trimTrailing (p : Char → Bool) (l : List Char) : List Char :=
  (l.reverse.dropWhile p).reverse

/-- Value extraction as the claim's words describe it (for comparison with
`lineValue`, which is translated from the code): the text after the first
colon, whitespace-stripped, with only TRAILING quote/comma characters
trimmed — leading ones kept. -/
def lineValueClaimed (line : List Char) : List Char :=
  trimTrailing isQuoteComma (trimBoth Char.isWhitespace (afterFirstColon line))

/-- The sentinel replies treated as "no news":
`result_text.lower() in ["null", "none", "no news", "no fresh news"]`. -/
def sentinelReplies : List String := ["null", "none", "no news", "no fresh news"]

/-- The payload `get_city_news` returns: either `{"news": [...]}` or, from
the except branch, `{"news": [], "error": str(e)}`. -/
structure CityNewsResponse where
  news : List FreeRec
  error : Option String
deriving DecidableEq, Repr

/-- Outcome of the LLM call inside `get_city_news`: a raised exception with
message `msg`, or a response text. -/
inductive LLMCall where
  | err (msg : String)
  | ok (text : String)

/-- `get_city_news` (main2.py). -/
def get_city_news (city : String) (call : LLMCall) : CityNewsResponse :=
  match call with
  | .err m => { news := [], error := some m }
  | .ok t =>
    let rt := pyStrip t
    if rt = "" ∨ lowerStr rt ∈ sentinelReplies then { news := [], error := none }
    else { news := parseFreeform city rt, error := none }

end CityApi

/-- All-successful extraction oracle for the end-to-end cap scenario. -/
def demoExtract : String → Option String := fun _ => some "body"

/-- Trivial record builder for the end-to-end cap scenario. -/
def demoMkRec (u t : String) : App.NewsRec :=
  { news_url := u, summary := t, city := ["unknown"], locality := ["unknown"],
    news_type := "Unknown", date := "2025-01-01" }

/-- The invariant shape of a city/locality field: either exactly the
sentinel `["unknown"]`, or a non-empty list of values none of which is the
sentinel (case-insensitively). -/
def goodListB (l : List String) : Bool :=
  decide (l = ["unknown"]) ||
    (!l.isEmpty && l.all (fun x => decide (lowerStr x ≠ "unknown")))

/-! ## Lemmas about the capped processing loop -/

theorem processSource_records_le {α : Type} (ex : String → Option String)
    (mk : String → String → α) (cap : Nat) :
    ∀ (urls : List String) (v : Nat),
      (processSource ex mk cap urls v).1.length ≤ cap - v := by
  intro urls
  induction urls with
  | nil => intro v; simp [processSource]
  | cons u rest ih =>
    intro v
    by_cases hv : cap ≤ v
    · simp [processSource, hv]
    · rcases hex : ex u with _ | t
      · simpa [processSource, hv, hex] using ih v
      · by_cases ht : t = ""
        · simpa [processSource, hv, hex, ht] using ih v
        · have h2 := ih (v + 1)
          simp only [processSource, hv, hex, ht, if_false, List.length_cons,
            if_neg, not_false_eq_true]
          omega

theorem processSource_records_eq_successes {α : Type} (ex : String → Option String)
    (mk : String → String → α) (cap : Nat) :
    ∀ (urls : List String) (v : Nat),
      ((processSource ex mk cap urls v).2.filter (succeeds ex)).length
        = (processSource ex mk cap urls v).1.length := by
  intro urls
  induction urls with
  | nil => intro v; simp [processSource]
  | cons u rest ih =>
    intro v
    by_cases hv : cap ≤ v
    · simp [processSource, hv]
    · rcases hex : ex u with _ | t
      · have hs : succeeds ex u = false := by simp [succeeds, hex]
        simpa [processSource, hv, hex, List.filter_cons, hs] using ih v
      · by_cases ht : t = ""
        · have hs : succeeds ex u = false := by simp [succeeds, hex, ht]
          simpa [processSource, hv, hex, ht, List.filter_cons, hs] using ih v
        · have hs : succeeds ex u = true := by simp [succeeds, hex, ht]
          simpa [processSource, hv, hex, ht, List.filter_cons, hs] using ih (v + 1)

theorem processSource_attempts_prefix {α : Type} (ex : String → Option String)
    (mk : String → String → α) (cap : Nat) :
    ∀ (urls : List String) (v : Nat),
      (processSource ex mk cap urls v).2 <+: urls := by
  intro urls
  induction urls with
  | nil => intro v; simp [processSource]
  | cons u rest ih =>
    intro v
    by_cases hv : cap ≤ v
    · simp [processSource, hv]
    · have step : ∀ v', (processSource ex mk cap rest v').2 <+: rest →
          (u :: (processSource ex mk cap rest v').2) <+: (u :: rest) := by
        intro v' h
        obtain ⟨t', ht⟩ := h
        exact ⟨t', by simp [ht]⟩
      rcases hex : ex u with _ | t
      · simpa [processSource, hv, hex] using step v (ih v)
      · by_cases ht : t = ""
        · simpa [processSource, hv, hex, ht] using step v (ih v)
        · simpa [processSource, hv, hex, ht] using step (v + 1) (ih (v + 1))

theorem processSource_attempts_below_cap {α : Type} (ex : String → Option String)
    (mk : String → String → α) (cap : Nat) :
    ∀ (urls : List String) (v : Nat) (i : Nat),
      i < (processSource ex mk cap urls v).2.length →
      v + (((processSource ex mk cap urls v).2.take i).filter
        (succeeds ex)).length < cap := by
  intro urls
  induction urls with
  | nil => intro v i hi; simp [processSource] at hi
  | cons u rest ih =>
    intro v i hi
    by_cases hv : cap ≤ v
    · simp [processSource, hv] at hi
    · rcases hex : ex u with _ | t
      · have hs : succeeds ex u = false := by simp [succeeds, hex]
        simp only [processSource, hv, hex, if_neg, not_false_eq_true] at hi ⊢
        match i with
        | 0 => simpa using Nat.lt_of_not_le hv
        | i + 1 =>
          simp only [List.length_cons, Nat.add_lt_add_iff_right] at hi
          simpa [List.take_succ_cons, List.filter_cons, hs] using ih v i hi
      · by_cases ht : t = ""
        · have hs : succeeds ex u = false := by simp [succeeds, hex, ht]
          simp only [processSource, hv, hex, ht, if_neg, not_false_eq_true,
            if_true] at hi ⊢
          match i with
          | 0 => simpa using Nat.lt_of_not_le hv
          | i + 1 =>
            simp only [List.length_cons, Nat.add_lt_add_iff_right] at hi
            simpa [List.take_succ_cons, List.filter_cons, hs] using ih v i hi
        · have hs : succeeds ex u = true := by simp [succeeds, hex, ht]
          simp only [processSource, hv, hex, ht, if_neg, not_false_eq_true,
            if_false] at hi ⊢
          match i with
          | 0 => simpa using Nat.lt_of_not_le hv
          | i + 1 =>
            simp only [List.length_cons, Nat.add_lt_add_iff_right] at hi
            have h2 := ih (v + 1) i hi
            simp only [List.take_succ_cons, List.filter_cons, hs, if_true,
              List.length_cons]
            omega

/-- Claim C1: for every source processed by the aggregator run, the number
of records never exceeds the source's cap; the cap counts only successful
extractions (the records are exactly as many as the successful attempts,
absent extractions not counting); the attempted candidates are an initial
segment of the discovered candidates and each attempt is issued only while
fewer than `cap` successes exist — so once the cap of successful records is
reached no further extraction attempts are issued even if unscanned
candidates remain.  The closing conjunct is the spec's end-to-end scenario:
25 all-successful candidates under cap 20 yield exactly 20 records from
exactly 20 extraction attempts. -/
theorem C1_cap_only_successes (ex : String → Option String)
    (mk : String → String → App.NewsRec) (cap : Nat) (urls : List String) :
    (processSource ex mk cap urls 0).1.length ≤ cap
    ∧ (processSource ex mk cap urls 0).1.length
        = ((processSource ex mk cap urls 0).2.filter (succeeds ex)).length
    ∧ (processSource ex mk cap urls 0).2 <+: urls
    ∧ (∀ i, i < (processSource ex mk cap urls 0).2.length →
        (((processSource ex mk cap urls 0).2.take i).filter
          (succeeds ex)).length < cap)
    ∧ (processSource demoExtract demoMkRec 20
        (List.replicate 25 "u") 0).1.length = 20
    ∧ (processSource demoExtract demoMkRec 20
        (List.replicate 25 "u") 0).2.length = 20 := by
  refine ⟨?_, (processSource_records_eq_successes ex mk cap urls 0).symm,
    processSource_attempts_prefix ex mk cap urls 0,
    ?_, by decide, by decide⟩
  · simpa using processSource_records_le ex mk cap urls 0
  · intro i hi
    simpa using processSource_attempts_below_cap ex mk cap urls 0 i hi

/-- Witness for C1 at concrete input: a run of 25 all-successful candidates
with cap 20, hypotheses discharged at attempt index 5. -/
theorem C1_cap_only_successes_witness :
    (processSource demoExtract demoMkRec 20
      (List.replicate 25 "u") 0).1.length ≤ 20
    ∧ (((processSource demoExtract demoMkRec 20
        (List.replicate 25 "u") 0).2.take 5).filter
          (succeeds demoExtract)).length < 20 := by
  have h := C1_cap_only_successes demoExtract demoMkRec 20 (List.replicate 25 "u")
  exact ⟨h.1, h.2.2.2.1 5 (by decide)⟩

/-! ## The sentinel-collapse rule (claims C2, C3) -/

/-- Claim C2: the LocationExtractor applies the sentinel-collapse rule
independently per field — a field whose decoded list is empty or contains
an element equal to "unknown" case-insensitively becomes exactly
`["unknown"]`, and is returned unchanged otherwise; and the response
`city = [], locality = ["Unknown"]` normalizes to
`city = ["unknown"], locality = ["unknown"]`. -/
theorem C2_sentinel_collapse (c l : List String) :
    App.collapseField c
      = (if c = [] ∨ ∃ x ∈ c, lowerStr x = "unknown" then ["unknown"] else c)
    ∧ App.get_city "news body" (some (some c, some l))
      = (App.collapseField c, App.collapseField l)
    ∧ App.get_city "news body" (some (some [], some ["Unknown"]))
      = (["unknown"], ["unknown"]) := by
  refine ⟨?_, ?_, by rfl⟩
  · have key : (c ≠ [] ∧ "unknown" ∉ c.map lowerStr)
        ↔ ¬(c = [] ∨ ∃ x ∈ c, lowerStr x = "unknown") := by
      rw [not_or]
      constructor
      · rintro ⟨h1, h2⟩
        refine ⟨h1, fun ⟨x, hx, hlx⟩ => h2 ?_⟩
        exact List.mem_map.mpr ⟨x, hx, hlx⟩
      · rintro ⟨h1, h2⟩
        refine ⟨h1, fun hm => h2 ?_⟩
        obtain ⟨x, hx, hlx⟩ := List.mem_map.mp hm
        exact ⟨x, hx, hlx⟩
    by_cases h : c = [] ∨ ∃ x ∈ c, lowerStr x = "unknown"
    · rw [if_pos h]
      unfold App.collapseField
      rw [if_neg (fun hc => (key.mp hc) h)]
    · rw [if_neg h]
      unfold App.collapseField
      rw [if_pos (key.mpr h)]
  · simp [App.get_city]

/-- Claim C5: on a classification response whose strict JSON decode fails,
or decodes without a `news_type` key, `extract_names_from_text` returns the
default `"Unknown"` (and, being a total function of the decode outcome,
raises nothing to the caller). -/
theorem C5_classifier_default (text today : String) :
    App.extract_names_from_text text none today
      = { news_type := "Unknown", date := today }
    ∧ App.extract_names_from_text text (some none) today
      = { news_type := "Unknown", date := today } := by
  by_cases h : text = "" <;> simp [App.extract_names_from_text, h]

/-! ## Idempotence of normalization (claim C7) -/

theorem dropWhile_eq_self_of_head (p : Char → Bool) (l : List Char)
    (h : ∀ c, l.head? = some c → p c = false) : l.dropWhile p = l := by
  cases l with
  | nil => rfl
  | cons c rest => simp [List.dropWhile_cons, h c rfl]

theorem trimBoth_eq_self (p : Char → Bool) (l : List Char)
    (h1 : ∀ c, l.head? = some c → p c = false)
    (h2 : ∀ c, l.getLast? = some c → p c = false) : trimBoth p l = l := by
  unfold trimBoth
  rw [dropWhile_eq_self_of_head p l h1]
  rw [dropWhile_eq_self_of_head p l.reverse
    (fun c hc => h2 c (by rwa [List.head?_reverse] at hc))]
  exact List.reverse_reverse l

/-- Claim C7: the article-text normalization step is idempotent — applied
to text that is already normalized (no newlines, no brackets, no
leading/trailing whitespace) it returns the text unchanged. -/
theorem C7_normalize_idempotent (s : String)
    (h1 : ∀ c ∈ s.data, c ≠ '\n' ∧ isBracketChar c = false)
    (h2 : noEdgeWhitespace s.data = true) :
    normalizeText s = s := by
  obtain ⟨l⟩ := s
  simp only [String.data] at h1 h2
  have hnl : removeNewlines ⟨l⟩ = ⟨l⟩ := by
    unfold removeNewlines
    congr 1
    exact List.filter_eq_self.mpr (fun c hc => by
      simpa using (h1 c hc).1)
  have hbr : removeBrackets ⟨l⟩ = ⟨l⟩ := by
    unfold removeBrackets
    congr 1
    exact List.filter_eq_self.mpr (fun c hc => by
      simpa using (h1 c hc).2)
  have hedge : trimBoth Char.isWhitespace l = l := by
    unfold noEdgeWhitespace at h2
    rw [Bool.and_eq_true] at h2
    refine trimBoth_eq_self Char.isWhitespace l ?_ ?_
    · intro c hc
      have := h2.1
      rw [hc] at this
      simpa using this
    · intro c hc
      have := h2.2
      rw [hc] at this
      simpa using this
  unfold normalizeText
  rw [hnl, hbr]
  unfold pyStrip
  simp only [hedge]

/-- Witness for C7 at a concrete already-normalized text. -/
theorem C7_normalize_idempotent_witness :
    normalizeText "Flood in Sector 12" = "Flood in Sector 12" :=
  C7_normalize_idempotent "Flood in Sector 12" (by decide) (by decide)

/-! ## Error/success distinguishability of the single-city query (claim C8) -/

/-- Claim C8: `get_city_news` keeps success and error outcomes
distinguishable — a successful run whose response is empty or a no-news
sentinel yields an empty record list with no error message, while a fatal
failure (the LLM call raising, with a non-empty exception text) yields an
error payload carrying that non-empty message alongside an empty record
list; both shapes are returned, never raised. -/
theorem C8_outcomes_distinguishable (city t m : String)
    (hq : pyStrip t = "" ∨ lowerStr (pyStrip t) ∈ CityApi.sentinelReplies)
    (hm : m ≠ "") :
    CityApi.get_city_news city (.ok t) = { news := [], error := none }
    ∧ (CityApi.get_city_news city (.err m)).news = []
    ∧ ∃ s, (CityApi.get_city_news city (.err m)).error = some s ∧ s ≠ "" := by
  refine ⟨by simp [CityApi.get_city_news, hq], rfl, ⟨m, rfl, hm⟩⟩

/-- Witness for C8 at a concrete sentinel reply and a concrete failure. -/
theorem C8_outcomes_distinguishable_witness :
    CityApi.get_city_news "Delhi" (.ok "  null ")
      = { news := [], error := none }
    ∧ (CityApi.get_city_news "Delhi" (.err "LLM unreachable")).news = []
    ∧ ∃ s, (CityApi.get_city_news "Delhi" (.err "LLM unreachable")).error
        = some s ∧ s ≠ "" :=
  C8_outcomes_distinguishable "Delhi" "  null " "LLM unreachable"
    (by
      right
      rw [show lowerStr (pyStrip "  null ") = "null" from rfl]
      exact List.mem_cons_self "null" _)
    (by decide)

/-! ## Pipeline-wide record invariants (claims C3, C9) -/

theorem processSource_all {α : Type} (P : α → Bool) (ex : String → Option String)
    (mk : String → String → α) (cap : Nat) (h : ∀ u t, P (mk u t) = true) :
    ∀ (urls : List String) (v : Nat),
      ((processSource ex mk cap urls v).1.all P) = true := by
  intro urls
  induction urls with
  | nil => intro v; simp [processSource]
  | cons u rest ih =>
    intro v
    by_cases hv : cap ≤ v
    · simp [processSource, hv]
    · rcases hex : ex u with _ | t
      · simpa [processSource, hv, hex] using ih v
      · by_cases ht : t = ""
        · simpa [processSource, hv, hex, ht] using ih v
        · simpa [processSource, hv, hex, ht, h u t] using ih (v + 1)

theorem app_fetch_news_all (w : App.World) (today : String) (P : App.NewsRec → Bool)
    (h : ∀ u t, P (App.mkRec w today u t) = true) :
    ((App.fetch_news w today).all P) = true := by
  unfold App.fetch_news
  rw [List.all_append, List.all_append]
  simp only [Bool.and_eq_true]
  refine ⟨⟨?_, ?_⟩, ?_⟩
  · unfold App.cwContribution
    rcases w.cwListing with _ | ⟨status, hrefs⟩
    · rfl
    · by_cases hs : status = 200
      · simpa [hs] using processSource_all P _ _ 20 h _ 0
      · simp [hs]
  · unfold App.etContribution
    rcases w.etFeed with _ | urls
    · rfl
    · simpa using processSource_all P _ _ 10 h urls 0
  · unfold App.rpContribution
    rcases w.rpListing with _ | hrefs
    · rfl
    · simpa using processSource_all P _ _ 6 h _ 0

theorem main_get_news_all (w : MainApp.World) (today : String)
    (P : MainApp.NewsRec → Bool)
    (h : ∀ u t, P (MainApp.mkRec w today u t) = true) :
    ((MainApp.get_news w today).all P) = true := by
  unfold MainApp.get_news
  rw [List.all_append, List.all_append]
  simp only [Bool.and_eq_true]
  refine ⟨⟨?_, ?_⟩, ?_⟩
  · unfold MainApp.cwContribution
    rcases w.cwListing with _ | ⟨status, hrefs⟩
    · rfl
    · by_cases hs : status = 200
      · simpa [hs] using processSource_all P _ _ 5 h _ 0
      · simp [hs]
  · unfold MainApp.etContribution
    rcases w.etFeed with _ | urls
    · rfl
    · simpa using processSource_all P _ _ 5 h urls 0
  · unfold MainApp.rpContribution
    rcases w.rpListing with _ | hrefs
    · rfl
    · simpa using processSource_all P _ _ 5 h _ 0

theorem goodListB_collapseField (l : List String) :
    goodListB (App.collapseField l) = true := by
  unfold App.collapseField
  by_cases h : l ≠ [] ∧ "unknown" ∉ l.map lowerStr
  · rw [if_pos h]
    unfold goodListB
    rw [Bool.or_eq_true]
    right
    rw [Bool.and_eq_true]
    refine ⟨by simpa using h.1, ?_⟩
    rw [List.all_eq_true]
    intro x hx
    have : lowerStr x ≠ "unknown" := fun he => h.2 (he ▸ List.mem_map_of_mem lowerStr hx)
    simpa using this
  · rw [if_neg h]
    rfl

theorem generate_summary_good (t : String) (env : App.LLMEnv) (today : String) :
    goodListB (App.generate_summary t env today).city = true
    ∧ goodListB (App.generate_summary t env today).locality = true
    ∧ (App.generate_summary t env today).date = today := by
  unfold App.generate_summary
  by_cases ht : t = ""
  · simp [ht]; rfl
  · rcases env.sumResp with e | raw
    · simp [ht]; rfl
    · unfold App.get_city App.extract_names_from_text
      rcases hd : env.locDecoded with _ | ⟨c, l⟩ <;>
        rcases hh : env.typeDecoded with _ | nt <;>
        simp [ht, hd, hh, goodListB_collapseField] <;> rfl

/-- Claim C3: every record assembled by the aggregator pipeline, whatever
path produced it (success, LLM failure, decode failure or empty input
text), has non-empty `city` and `locality` fields: each is either a list of
all-real values or exactly `["unknown"]`. -/
theorem C3_location_never_empty (w : App.World) (today : String) :
    ((App.fetch_news w today).all
      (fun r => goodListB r.city && goodListB r.locality)) = true := by
  refine app_fetch_news_all w today _ (fun u t => ?_)
  unfold App.mkRec
  have h := generate_summary_good t (w.llm u) today
  simp [h.1, h.2.1]

/-- Claim C9: every record the aggregator pipelines produce (both the
app.py `fetch_news` run and the main.py `get_news` run) carries the run's
current date: no path derives a publication date from the article. -/
theorem C9_date_is_run_date (w : App.World) (wm : MainApp.World) (today : String) :
    ((App.fetch_news w today).all (fun r => decide (r.date = today))) = true
    ∧ ((MainApp.get_news wm today).all (fun r => decide (r.date = today))) = true := by
  constructor
  · refine app_fetch_news_all w today _ (fun u t => ?_)
    unfold App.mkRec
    simpa using (generate_summary_good t (w.llm u) today).2.2
  · refine main_get_news_all wm today _ (fun u t => ?_)
    unfold MainApp.mkRec
    suffices h : (MainApp.generate_summary t (wm.llm u) today).date = today by simpa using h
    unfold MainApp.generate_summary
    by_cases ht : t = ""
    · simp [ht]
    · rcases (wm.llm u).sumResp with e | raw <;>
        simp [ht, MainApp.extract_names_from_text]

/-! ## Source-failure isolation (claim C6) -/

/-- Claim C6: a source whose listing fetch fails (an HTTP 500 on the
status-checked constructionworld block, or a raised error on the feed and
rprealtyplus blocks) contributes zero records, and the run's output is the
concatenation of the surviving sources' contributions; the same holds for
main.py's `get_news`.  No exception propagates: the run is a total
function of the world. -/
theorem C6_source_isolation (w : App.World) (wm : MainApp.World)
    (hrefs : List String) (today : String) :
    App.cwContribution { w with cwListing := some (500, hrefs) } today = []
    ∧ App.fetch_news { w with cwListing := some (500, hrefs) } today
        = App.etContribution w today ++ App.rpContribution w today
    ∧ App.etContribution { w with etFeed := none } today = []
    ∧ App.fetch_news { w with etFeed := none } today
        = App.cwContribution w today ++ App.rpContribution w today
    ∧ App.rpContribution { w with rpListing := none } today = []
    ∧ App.fetch_news { w with rpListing := none } today
        = App.cwContribution w today ++ App.etContribution w today
    ∧ MainApp.etContribution { wm with etFeed := none } today = []
    ∧ MainApp.get_news { wm with etFeed := none } today
        = MainApp.cwContribution wm today ++ MainApp.rpContribution wm today := by
  refine ⟨rfl, rfl, rfl, ?_, rfl, ?_, rfl, ?_⟩
  · show App.cwContribution _ today ++ [] ++ App.rpContribution _ today = _
    simp only [List.append_nil]
    rfl
  · show App.cwContribution _ today ++ App.etContribution _ today ++ [] = _
    simp only [List.append_nil]
    rfl
  · show MainApp.cwContribution _ today ++ [] ++ MainApp.rpContribution _ today = _
    simp only [List.append_nil]
    rfl

/-! ## The freeform response parser (claims C4, C10) -/

/-- Counterexample to claim C4 as stated: the claim describes the field
value as the text after the first colon with only TRAILING quote/comma
characters trimmed, but the code's `.strip('",')` trims both ends.  On the
line `Summary: "Flood in Sector 12",` the parser produced by the code
yields the summary `Flood in Sector 12`, while the claim's described value
keeps the leading quote — the two differ. -/
theorem C4_trailing_trim_counterexample :
    CityApi.parseFreeform "Delhi" "Summary: \"Flood in Sector 12\","
      = [{ summary := some "Flood in Sector 12", city := some "Delhi" }]
    ∧ (⟨CityApi.lineValueClaimed ("Summary: \"Flood in Sector 12\",".data)⟩ : String)
      = "\"Flood in Sector 12"
    ∧ ("Flood in Sector 12" : String) ≠ "\"Flood in Sector 12" := by
  refine ⟨rfl, rfl, by decide⟩

/-- Claim C4 (amended): the parser splits the raw text into non-empty
lines, classifies each by the first matching keyword among summary,
locality, source, news_type, date (case-insensitive containment), takes
the value as the text after the first colon with surrounding whitespace
stripped and quote/comma characters trimmed from BOTH ends, closes and
emits the record under construction on a new summary line, and emits the
final in-progress record at end of input: the spec's five-line example
yields exactly two records, the first carrying its summary, locality and
date before the second Summary line closes it.  The second conjunct
exhibits the both-ends trimming on a quoted value. -/
theorem C4_freeform_parsing_amended (city : String) :
    CityApi.parseFreeform city
        "Summary: Flood in Sector 12\nLocality: Sector 12\nDate: 2025-08-03\nSummary: Metro delay\nDate: 2025-08-04"
      = [{ summary := some "Flood in Sector 12", city := some city,
           locality := some "Sector 12", date := some "2025-08-03" },
         { summary := some "Metro delay", city := some city,
           date := some "2025-08-04" }]
    ∧ CityApi.parseFreeform city "Summary: \"Flood in Sector 12\","
      = [{ summary := some "Flood in Sector 12", city := some city }] :=
  ⟨rfl, rfl⟩

theorem freerec_with_locality_ne_empty (r : CityApi.FreeRec) (v : String) :
    ({ r with locality := some v } : CityApi.FreeRec) ≠ ({} : CityApi.FreeRec) := by
  intro h
  have h2 := congrArg CityApi.FreeRec.locality h
  simp at h2

theorem freerec_with_source_ne_empty (r : CityApi.FreeRec) (v : String) :
    ({ r with source := some v } : CityApi.FreeRec) ≠ ({} : CityApi.FreeRec) := by
  intro h
  have h2 := congrArg CityApi.FreeRec.source h
  simp at h2

theorem freerec_with_news_type_ne_empty (r : CityApi.FreeRec) (v : String) :
    ({ r with news_type := some v } : CityApi.FreeRec) ≠ ({} : CityApi.FreeRec) := by
  intro h
  have h2 := congrArg CityApi.FreeRec.news_type h
  simp at h2

theorem freerec_with_date_ne_empty (r : CityApi.FreeRec) (v : String) :
    ({ r with date := some v } : CityApi.FreeRec) ≠ ({} : CityApi.FreeRec) := by
  intro h
  have h2 := congrArg CityApi.FreeRec.date h
  simp at h2

theorem stepLine_no_summary (city : String) (acc : List CityApi.FreeRec)
    (cur : CityApi.FreeRec) (line : List Char)
    (h : CityApi.hasKw "summary" line = false) :
    (CityApi.stepLine city (acc, cur) line).1 = acc
    ∧ (CityApi.stepLine city (acc, cur) line).2.summary = cur.summary
    ∧ (CityApi.setsField line = true →
        (CityApi.stepLine city (acc, cur) line).2 ≠ ({} : CityApi.FreeRec))
    ∧ (CityApi.setsField line = false →
        (CityApi.stepLine city (acc, cur) line).2 = cur) := by
  unfold CityApi.stepLine CityApi.setsField
  simp only [h, Bool.false_eq_true, if_false, Bool.or_eq_true]
  split_ifs with h1 h2 h3 h4
  · exact ⟨rfl, rfl, fun _ => freerec_with_locality_ne_empty cur _,
      fun hs => by simp [h1] at hs⟩
  · exact ⟨rfl, rfl, fun _ => freerec_with_source_ne_empty cur _,
      fun hs => by simp [h2] at hs⟩
  · exact ⟨rfl, rfl, fun _ => freerec_with_news_type_ne_empty cur _,
      fun hs => by simp [h3] at hs⟩
  · exact ⟨rfl, rfl, fun _ => freerec_with_date_ne_empty cur _,
      fun hs => by simp [h4] at hs⟩
  · exact ⟨rfl, rfl, fun hs => by simp [h1, h2, h3, h4] at hs, fun _ => rfl⟩

theorem foldl_no_summary (city : String) :
    ∀ (pre : List (List Char)) (acc : List CityApi.FreeRec) (cur : CityApi.FreeRec),
      (∀ l ∈ pre, CityApi.hasKw "summary" l = false) →
      ∃ cur', pre.foldl (CityApi.stepLine city) (acc, cur) = (acc, cur')
        ∧ cur'.summary = cur.summary
        ∧ ((cur ≠ ({} : CityApi.FreeRec) ∨ pre.any CityApi.setsField = true) →
            cur' ≠ ({} : CityApi.FreeRec)) := by
  intro pre
  induction pre with
  | nil =>
    intro acc cur h
    refine ⟨cur, rfl, rfl, ?_⟩
    rintro (hc | hc)
    · exact hc
    · simp at hc
  | cons u rest ih =>
    intro acc cur h
    have hu : CityApi.hasKw "summary" u = false := h u (List.mem_cons_self u rest)
    have hrest : ∀ l ∈ rest, CityApi.hasKw "summary" l = false :=
      fun l hl => h l (List.mem_cons_of_mem u hl)
    obtain ⟨hfst, hsum, hset, hkeep⟩ := stepLine_no_summary city acc cur u hu
    rcases hst : CityApi.stepLine city (acc, cur) u with ⟨a, b⟩
    rw [hst] at hfst hsum hset hkeep
    simp only at hfst hsum hset hkeep
    subst hfst
    rw [List.foldl_cons, hst]
    obtain ⟨cur', hfold, hsum', hne'⟩ := ih a b hrest
    refine ⟨cur', hfold, by rw [hsum', hsum], ?_⟩
    intro hc
    by_cases hs : CityApi.setsField u = true
    · exact hne' (Or.inl (hset hs))
    · have hb : CityApi.setsField u = false := by simpa using hs
      rw [hkeep hb] at hne'
      rcases hc with hc | hc
      · exact hne' (Or.inl hc)
      · rw [List.any_cons, hb] at hc
        simp only [Bool.false_or] at hc
        exact hne' (Or.inr hc)

theorem stepLine_fst_extends (city : String)
    (st : List CityApi.FreeRec × CityApi.FreeRec) (line : List Char) :
    ∃ d, (CityApi.stepLine city st line).1 = st.1 ++ d := by
  unfold CityApi.stepLine
  split_ifs <;>
    first
      | exact ⟨[], (List.append_nil _).symm⟩
      | exact ⟨[st.2], rfl⟩

theorem foldl_fst_extends (city : String) :
    ∀ (ls : List (List Char)) (st : List CityApi.FreeRec × CityApi.FreeRec),
      ∃ d, (ls.foldl (CityApi.stepLine city) st).1 = st.1 ++ d := by
  intro ls
  induction ls with
  | nil => intro st; exact ⟨[], (List.append_nil _).symm⟩
  | cons u rest ih =>
    intro st
    obtain ⟨d1, h1⟩ := stepLine_fst_extends city st u
    obtain ⟨d2, h2⟩ := ih (CityApi.stepLine city st u)
    exact ⟨d1 ++ d2, by rw [List.foldl_cons, h2, h1, List.append_assoc]⟩

/-- Claim C10: when locality/source/news_type/date lines appear before the
first summary line, the parser accumulates them into a record with no
summary field, and that summary-less record is emitted — either when the
first summary line is encountered or at end of input; records are not
required to begin with a summary line. -/
theorem C10_summaryless_record (city text : String)
    (pre post : List (List Char))
    (hsplit : CityApi.splitLines text = pre ++ post)
    (hns : ∀ l ∈ pre, CityApi.hasKw "summary" l = false)
    (hset : pre.any CityApi.setsField = true)
    (hpost : post = [] ∨
      (post ≠ [] ∧ CityApi.hasKw "summary" (post.headD []) = true)) :
    ∃ r tail, CityApi.parseFreeform city text = r :: tail ∧ r.summary = none := by
  unfold CityApi.parseFreeform
  rw [hsplit, List.foldl_append]
  obtain ⟨cur', hfold, hsum, hne⟩ :=
    foldl_no_summary city pre [] ({} : CityApi.FreeRec) hns
  rw [hfold]
  have hcur : cur' ≠ ({} : CityApi.FreeRec) := hne (Or.inr hset)
  have hsum' : cur'.summary = none := hsum
  rcases hpost with hp | ⟨hne2, hkw⟩
  · subst hp
    refine ⟨cur', [], ?_, hsum'⟩
    rw [List.foldl_nil]
    unfold CityApi.finishRun
    rw [if_neg hcur]
    rfl
  · rcases post with _ | ⟨l0, rest⟩
    · exact absurd rfl hne2
    have hl0 : CityApi.hasKw "summary" l0 = true := by simpa using hkw
    rw [List.foldl_cons]
    have hfst1 : (CityApi.stepLine city ([], cur') l0).1 = [cur'] := by
      unfold CityApi.stepLine
      simp [hl0, hcur]
    obtain ⟨d, hd⟩ := foldl_fst_extends city rest (CityApi.stepLine city ([], cur') l0)
    rw [hfst1] at hd
    unfold CityApi.finishRun
    by_cases hz :
        (rest.foldl (CityApi.stepLine city) (CityApi.stepLine city ([], cur') l0)).2
          = ({} : CityApi.FreeRec)
    · rw [if_pos hz, hd]
      exact ⟨cur', d, rfl, hsum'⟩
    · rw [if_neg hz, hd]
      refine ⟨cur',
        d ++ [(rest.foldl (CityApi.stepLine city)
          (CityApi.stepLine city ([], cur') l0)).2], ?_, hsum'⟩
      simp

/-- Witness for C10 at a concrete one-line input with a locality line and
no summary line. -/
theorem C10_summaryless_record_witness :
    ∃ r tail, CityApi.parseFreeform "Delhi" "Locality: Sector 9" = r :: tail
      ∧ r.summary = none :=
  C10_summaryless_record "Delhi" "Locality: Sector 9"
    ["Locality: Sector 9".data] []
    (by decide) (by decide) (by decide) (Or.inl rfl)

end CmsNews
